import Mathlib

/-!
Verification of the PRISM-INSIGHT trading-signal bus against its design
specification.

The development shallowly embeds the three source components the claims
are about:

* the polling consumer of `examples/messaging/redis_subscriber_example.py`
  (`parse_stream_data`, the `main` poll loop, `handle_signal`);
* the retrying Telegram send of `telegram_bot_agent.py`
  (`TelegramBotAgent.send_message`);
* the publisher of `messaging/redis_signal_publisher.py`
  (`SignalPublisher.__init__` / `connect` / `publish_signal` /
  `publish_sell_signal`).

External libraries are modelled at their interfaces: `json.loads` is an
abstract partial decoder (`jl : String → Option Signal`), the Redis
stream is a list of entries with strictly increasing server-assigned
ids, and the Telegram network is an oracle giving the outcome of each
send attempt.
-/

/-- A decoded trading signal, with the fields the consumer's control
flow depends on (`signal.get("type")`, ticker, company name, price).
The remaining fields of the record are only interpolated into log
messages and do not influence any modelled behaviour. -/
structure Signal where
  ty : String
  ticker : String
  companyName : String
  price : Int
deriving DecidableEq

/-- One Redis stream entry: the server-assigned id (monotonically
increasing within the stream) and the flattened field list as
upstash-redis returns it (`['field1', 'value1', 'field2', 'value2']`). -/
structure Entry where
  id : Nat
  fields : List String
deriving DecidableEq

deriving instance DecidableEq for Except

/-- Model of `parse_stream_data` (subscriber lines 48-61), list branch: pairs up
`[k1, v1, k2, v2, ...]`.  An odd-length list raises `IndexError` in the
dict comprehension (`data[i+1]`), modelled as `none`. -/
def parse_stream_data : List String → Option (List (String × String))
  | [] => some []
  | [_] => none
  | k :: v :: rest => (parse_stream_data rest).map (fun d => (k, v) :: d)

/-- Python dict lookup on the dict built by the comprehension: a later
occurrence of the same key overwrites an earlier one, so `.get` returns
the value of the last matching pair. -/
def pyDictGet (kvs : List (String × String)) (k : String) : Option String :=
  ((kvs.filter (fun p => p.1 == k)).getLast?).map (·.2)

/-- Per-entry decode step of the poll loop (subscriber lines 354-361):
parse the flat field list, fetch the `"data"` field, and `json.loads` it.
`Except.error` models an exception escaping to the outer `except` of the
poll loop; `.ok none` models a missing/empty `data` field (the entry is
silently skipped but the cursor still advances); `.ok (some s)` is a
decoded signal handed to `handle_signal`. -/
def entryStep (jl : String → Option Signal) (fields : List String) :
    Except Unit (Option Signal) :=
  match parse_stream_data fields with
  | none => .error ()
  | some kvs =>
    match pyDictGet kvs "data" with
    | none => .ok none
    | some raw =>
      if raw = "" then .ok none
      else
        match jl raw with
        | none => .error ()
        | some sig => .ok (some sig)

/-- Returns `true` when `entryStep` decodes the entry to a signal, i.e. the
entry is well-formed and will be dispatched to `handle_signal`. -/
def dispatchable (jl : String → Option Signal) (e : Entry) : Bool :=
  match entryStep jl e.fields with
  | .ok (some _) => true
  | _ => false

/-- Result of processing one `xread` batch (the inner `for` loops of
subscriber lines 352-370): the value of `last_id` afterwards, the
dispatched `(id, signal)` pairs in dispatch order, and whether an
exception aborted the batch (caught at line 375). -/
structure BatchOut where
  lastId : Nat
  dispatched : List (Nat × Signal)
  aborted : Bool
deriving DecidableEq

/-- The inner message loop (subscriber lines 353-370): for each entry,
decode; on a decoded signal call `handle_signal` (recorded in
`dispatched`) and then set `last_id := msg_id`; on a missing `data`
field just set `last_id := msg_id`; on an exception abort the whole
batch with `last_id` unchanged since the previous entry. -/
def processBatch (jl : String → Option Signal) : List Entry → Nat → BatchOut
  | [], l => ⟨l, [], false⟩
  | e :: rest, l =>
    match entryStep jl e.fields with
    | .error _ => ⟨l, [], true⟩
    | .ok none => processBatch jl rest e.id
    | .ok (some sig) =>
      let r := processBatch jl rest e.id
      ⟨r.lastId, (e.id, sig) :: r.dispatched, r.aborted⟩

/-- Model of `redis.xread({stream: last_id}, count=cnt)`: the first `cnt` entries
whose id is strictly greater than `lastId`, in stream order. -/
def xread (stream : List Entry) (lastId cnt : Nat) : List Entry :=
  (stream.filter (fun e => decide (lastId < e.id))).take cnt

/-- One iteration of the `while True` poll loop body (subscriber lines
346-377) against a fixed stream: read up to 10 new entries and process
them. -/
def pollCycle (jl : String → Option Signal) (stream : List Entry) (lastId : Nat) :
    BatchOut :=
  processBatch jl (xread stream lastId 10) lastId

/-- Cumulative state of a run: final `last_id` and all dispatched
`(id, signal)` pairs in dispatch order. -/
structure RunOut where
  lastId : Nat
  dispatched : List (Nat × Signal)
deriving DecidableEq

/-- Runs `n` iterations of the poll loop against a fixed stream. -/
def runCycles (jl : String → Option Signal) (stream : List Entry) (lastId : Nat) :
    Nat → RunOut
  | 0 => ⟨lastId, []⟩
  | n + 1 =>
    let b := pollCycle jl stream lastId
    let r := runCycles jl stream b.lastId n
    ⟨r.lastId, b.dispatched ++ r.dispatched⟩

/-- Model of `redis.xrevrange(stream_name, count=1)`: the most recent entry, if
any. -/
def xrevrange1 (stream : List Entry) : Option Entry :=
  stream.getLast?

/-- Initial-cursor resolution (subscriber lines 224-243): `"0"` with
`--from-beginning`, otherwise the id of the newest existing entry, or
`"0"` if the stream is empty. -/
def resolveStart (fromBeginning : Bool) (stream : List Entry) : Nat :=
  if fromBeginning then 0
  else
    match xrevrange1 stream with
    | some e => e.id
    | none => 0

/-- A call into the execution adapter (`execute_buy_trade` /
`execute_sell_trade`). -/
inductive TradeCall
  | buy (ticker companyName : String)
  | sell (ticker companyName : String)
deriving DecidableEq

/-- The trade calls `handle_signal` (subscriber lines 250-335) makes for
one signal: a BUY signal triggers `execute_buy_trade` unless
`--dry-run`, a SELL signal `execute_sell_trade` unless `--dry-run`;
EVENT and unknown types only log. -/
def handle_signal (dryRun : Bool) (sig : Signal) : List TradeCall :=
  if sig.ty = "BUY" then
    if dryRun then [] else [.buy sig.ticker sig.companyName]
  else if sig.ty = "SELL" then
    if dryRun then [] else [.sell sig.ticker sig.companyName]
  else []

/-- All execution-adapter calls made over a run of `n` poll cycles. -/
def runTradeCalls (jl : String → Option Signal) (dryRun : Bool)
    (stream : List Entry) (lastId n : Nat) : List TradeCall :=
  ((runCycles jl stream lastId n).dispatched.map
    (fun p => handle_signal dryRun p.2)).flatten

/-- Events of the dispatch trace of one batch: `disp i` records
`handle_signal` being invoked (and returning) for entry `i`, `curs i`
records the `last_id := msg_id` assignment. -/
inductive Ev
  | disp (id : Nat)
  | curs (id : Nat)
deriving DecidableEq

/-- The ordered event trace produced by processing one batch (subscriber
lines 353-370): a decoded entry yields its handler call followed by the
cursor assignment; an entry with no `data` payload yields only the
cursor assignment; an exception ends the trace. -/
def batchTrace (jl : String → Option Signal) : List Entry → List Ev
  | [] => []
  | e :: rest =>
    match entryStep jl e.fields with
    | .error _ => []
    | .ok none => Ev.curs e.id :: batchTrace jl rest
    | .ok (some _) => Ev.disp e.id :: Ev.curs e.id :: batchTrace jl rest

/-! ## Telegram send with retry (`telegram_bot_agent.py`, lines 94-152) -/

/-- Outcome of one `bot.send_message` network call: success, a
`RetryAfter` rate-limit error carrying the server wait, a `TimedOut`
error, or any other `TelegramError` carrying its message text. -/
inductive SendOutcome
  | success
  | retryAfter (secs : Nat)
  | timedOut
  | otherError (msg : String)
deriving DecidableEq

/-- Observable actions of `send_message`: a network send attempt with
the parse mode it was issued with, and an `asyncio.sleep`. -/
inductive Act
  | call (parseMode : Option String)
  | sleep (secs : Nat)
deriving DecidableEq

/-- Model of the check `"parse" in str(e).lower()` (line 140). -/
def containsParse (s : String) : Bool :=
  (s.toLower.splitOn "parse").length ≥ 2

/-- Python truthiness of the `parse_mode` argument (`None` and `""` are
falsy). -/
def pmTruthy : Option String → Bool
  | none => false
  | some s => s ≠ ""

/-- Model of `TelegramBotAgent.send_message` (lines 94-152).  `net k` is the
outcome of the `k`-th network call of this invocation chain.  Returns
the boolean result and the ordered list of attempts and sleeps:

* success → `True`;
* `RetryAfter e` → sleep `e.retry_after + 1` seconds, then recurse with
  `retry_count + 1` if `retry_count < max_retries`, else `False`
  (the sleep happens before the bound check, line 121);
* `TimedOut` → if `retry_count < max_retries`, sleep `2 ** retry_count`
  seconds and recurse, else `False` with no sleep;
* any other `TelegramError` → if a parse mode was set and the message
  text contains `"parse"`, one fallback send with no parse mode whose
  success decides the result; otherwise `False`. -/
def send_message (net : Nat → SendOutcome) (k : Nat) (parseMode : Option String)
    (retryCount maxRetries : Nat) : Bool × List Act :=
  match net k with
  | .success => (true, [.call parseMode])
  | .retryAfter secs =>
    let w := secs + 1
    if _h : retryCount < maxRetries then
      let r := send_message net (k + 1) parseMode (retryCount + 1) maxRetries
      (r.1, .call parseMode :: .sleep w :: r.2)
    else (false, [.call parseMode, .sleep w])
  | .timedOut =>
    if _h : retryCount < maxRetries then
      let w := 2 ^ retryCount
      let r := send_message net (k + 1) parseMode (retryCount + 1) maxRetries
      (r.1, .call parseMode :: .sleep w :: r.2)
    else (false, [.call parseMode])
  | .otherError msg =>
    if pmTruthy parseMode && containsParse msg then
      match net (k + 1) with
      | .success => (true, [.call parseMode, .call none])
      | _ => (false, [.call parseMode, .call none])
    else (false, [.call parseMode])
termination_by maxRetries - retryCount
decreasing_by all_goals omega

/-- Number of network send attempts recorded in a trace. -/
def countCalls (tr : List Act) : Nat :=
  (tr.filter (fun a => match a with | .call _ => true | _ => false)).length

/-- The sleep durations of a trace, in order. -/
def sleepsOf (tr : List Act) : List Nat :=
  tr.filterMap (fun a => match a with | .sleep s => some s | _ => none)

/-! ## Signal publisher (`messaging/redis_signal_publisher.py`) -/

/-- The resolved Upstash credentials (constructor argument or
environment variable; `none` when neither is set). -/
structure Credentials where
  url : Option String
  token : Option String
deriving DecidableEq

/-- Python truthiness of a resolved credential string. -/
def truthyStr : Option String → Bool
  | none => false
  | some s => s ≠ ""

/-- Checks `self.redis_url and self.redis_token` being both truthy (lines 62, 79). -/
def credentialsConfigured (c : Credentials) : Bool :=
  truthyStr c.url && truthyStr c.token

/-- Publisher state: the credentials captured by `__init__` and whether
`self._redis` holds a client (`_is_connected`). -/
structure PubState where
  creds : Credentials
  redis : Bool
deriving DecidableEq

/-- Model of `SignalPublisher.__init__` (lines 46-66): stores the credentials,
leaves `self._redis = None`. -/
def SignalPublisher.init (c : Credentials) : PubState :=
  ⟨c, false⟩

/-- Model of `SignalPublisher.connect` (lines 77-94): with unconfigured
credentials it returns immediately and `_redis` stays `None`;
otherwise `_redis` is set unless client construction fails
(`backendOk = false` models an import failure or an exception from
`Redis(...)`, both of which leave `_redis = None`). -/
def SignalPublisher.connect (s : PubState) (backendOk : Bool) : PubState :=
  if credentialsConfigured s.creds then { s with redis := backendOk } else s

/-- A scalar value of the signal record. -/
inductive Val
  | s (v : String)
  | n (v : Int)
  | b (v : Bool)
deriving DecidableEq

/-- The scenario dict passed to `publish_signal`, reduced to the six
whitelisted fields it projects (lines 148-153), each already defaulted
as `scenario.get(key, default)` would. -/
structure Scenario where
  target_price : Int
  stop_loss : Int
  investment_period : String
  sector : String
  rationale : String
  buy_score : Int
deriving DecidableEq

/-- The `trade_result` dict of the convenience wrappers, reduced to the
two fields they read. -/
structure TradeResult where
  success : Bool
  message : String
deriving DecidableEq

/-- Python dict assignment `d[k] = v` on a dict kept as an insertion-ordered
association list: overwrite in place if the key exists, else append. -/
def dictSet (d : List (String × Val)) (k : String) (v : Val) : List (String × Val) :=
  if d.any (fun p => p.1 == k) then
    d.map (fun p => if p.1 == k then (k, v) else p)
  else d ++ [(k, v)]

/-- Python dict update `d.update(e)`. -/
def dictUpdate (d e : List (String × Val)) : List (String × Val) :=
  e.foldl (fun acc p => dictSet acc p.1 p.2) d

/-- Python dict lookup `d.get(k)` on a dict kept as an insertion-ordered association
list (keys are unique, so any match is the binding). -/
def dictGet (d : List (String × Val)) (k : String) : Option Val :=
  ((d.filter (fun p => p.1 == k)).getLast?).map (·.2)

/-- The `signal_data` dict built by `publish_signal` (lines 136-157):
the six fixed fields, then the six whitelisted scenario fields when a
(truthy) scenario was passed, then the `extra_data` merge. -/
def buildSignalData (ty ticker companyName : String) (price : Int)
    (source timestamp : String) (scen : Option Scenario)
    (extra : List (String × Val)) : List (String × Val) :=
  let base : List (String × Val) :=
    [("type", .s ty), ("ticker", .s ticker), ("company_name", .s companyName),
     ("price", .n price), ("source", .s source), ("timestamp", .s timestamp)]
  let withScen :=
    match scen with
    | none => base
    | some sc =>
      base ++
        [("target_price", .n sc.target_price), ("stop_loss", .n sc.stop_loss),
         ("investment_period", .s sc.investment_period), ("sector", .s sc.sector),
         ("rationale", .s sc.rationale), ("buy_score", .n sc.buy_score)]
  dictUpdate withScen extra

/-- Result of one `publish_signal` call: the value returned to the
caller and the `xadd` calls performed (each carrying the record that
was serialized into the `data` field). -/
structure PublishOut where
  result : Option String
  appends : List (List (String × Val))
deriving DecidableEq

/-- Model of `SignalPublisher.publish_signal` (lines 106-176): if `_redis` is
`None` return `None` without touching the backend; otherwise build the
record and `xadd` it — `appendRes = some id` is a successful append
returning the message id, `appendRes = none` an exception from the
backend, caught and turned into `None` (lines 174-176). -/
def publish_signal (st : PubState) (ty ticker companyName : String)
    (price : Int) (source timestamp : String) (scen : Option Scenario)
    (extra : List (String × Val)) (appendRes : Option String) : PublishOut :=
  if st.redis = false then ⟨none, []⟩
  else
    let record := buildSignalData ty ticker companyName price source timestamp scen extra
    match appendRes with
    | some mid => ⟨some mid, [record]⟩
    | none => ⟨none, [record]⟩

/-- The `extra_data` dict built by `publish_sell_signal`
(lines 241-249). -/
def sellExtra (buyPrice profitRate : Int) (sellReason : String)
    (tr : Option TradeResult) : List (String × Val) :=
  [("buy_price", .n buyPrice), ("profit_rate", .n profitRate),
   ("sell_reason", .s sellReason)] ++
    match tr with
    | none => []
    | some t => [("trade_success", .b t.success), ("trade_message", .s t.message)]

/-- Model of `SignalPublisher.publish_sell_signal` (lines 216-258): delegates to
`publish_signal` with `signal_type="SELL"`, the hard-coded
`source="AI분석"`, no scenario, and the sell extra fields. -/
def publish_sell_signal (st : PubState) (ticker companyName : String)
    (price buyPrice profitRate : Int) (sellReason : String)
    (tr : Option TradeResult) (timestamp : String)
    (appendRes : Option String) : PublishOut :=
  publish_signal st "SELL" ticker companyName price "AI분석" timestamp none
    (sellExtra buyPrice profitRate sellReason tr) appendRes

/-- Model of `SignalPublisher.publish_buy_signal` (lines 178-214): delegates to
`publish_signal` with `signal_type="BUY"`, forwarding its caller-chosen
`source` and `scenario` plus the trade-result extra fields. -/
def publish_buy_signal (st : PubState) (ticker companyName : String)
    (price : Int) (scen : Option Scenario) (source : String)
    (tr : Option TradeResult) (timestamp : String)
    (appendRes : Option String) : PublishOut :=
  let extra : List (String × Val) :=
    match tr with
    | none => []
    | some t => [("trade_success", .b t.success), ("trade_message", .s t.message)]
  publish_signal st "BUY" ticker companyName price source timestamp scen extra appendRes

/-! ## Unfolding lemmas for `send_message` -/

theorem send_message_success (net : Nat → SendOutcome) (k : Nat)
    (pm : Option String) (r m : Nat) (h : net k = .success) :
    send_message net k pm r m = (true, [.call pm]) := by
  conv_lhs => rw [send_message.eq_def]
  rw [h]

theorem send_message_retryAfter (net : Nat → SendOutcome) (k : Nat)
    (pm : Option String) (r m secs : Nat) (h : net k = .retryAfter secs) :
    send_message net k pm r m =
      if r < m then
        ((send_message net (k + 1) pm (r + 1) m).1,
          .call pm :: .sleep (secs + 1) :: (send_message net (k + 1) pm (r + 1) m).2)
      else (false, [.call pm, .sleep (secs + 1)]) := by
  conv_lhs => rw [send_message.eq_def]
  rw [h]
  simp only [dite_eq_ite]

theorem send_message_timedOut (net : Nat → SendOutcome) (k : Nat)
    (pm : Option String) (r m : Nat) (h : net k = .timedOut) :
    send_message net k pm r m =
      if r < m then
        ((send_message net (k + 1) pm (r + 1) m).1,
          .call pm :: .sleep (2 ^ r) :: (send_message net (k + 1) pm (r + 1) m).2)
      else (false, [.call pm]) := by
  conv_lhs => rw [send_message.eq_def]
  rw [h]
  simp only [dite_eq_ite]

theorem send_message_otherError (net : Nat → SendOutcome) (k : Nat)
    (pm : Option String) (r m : Nat) (msg : String) (h : net k = .otherError msg) :
    send_message net k pm r m =
      if pmTruthy pm && containsParse msg then
        match net (k + 1) with
        | .success => (true, [.call pm, .call none])
        | _ => (false, [.call pm, .call none])
      else (false, [.call pm]) := by
  conv_lhs => rw [send_message.eq_def]
  rw [h]

theorem countCalls_call (pm : Option String) (tr : List Act) :
    countCalls (.call pm :: tr) = countCalls tr + 1 := by
  simp [countCalls, List.filter]

theorem countCalls_sleep (w : Nat) (tr : List Act) :
    countCalls (.sleep w :: tr) = countCalls tr := by
  simp [countCalls, List.filter]

theorem sleepsOf_call (pm : Option String) (tr : List Act) :
    sleepsOf (.call pm :: tr) = sleepsOf tr := by
  simp [sleepsOf, List.filterMap]

theorem sleepsOf_sleep (w : Nat) (tr : List Act) :
    sleepsOf (.sleep w :: tr) = w :: sleepsOf tr := by
  simp [sleepsOf, List.filterMap]

/-- Behaviour of `send_message` against a backend that times out on
every call, for any starting retry count `r ≤ m`: the result is
`False`, the number of send attempts is `m - r + 1`, and the sleeps are
the exponential backoff `2 ^ r, …, 2 ^ (m - 1)`. -/
theorem send_message_timeout_run (net : Nat → SendOutcome)
    (hnet : ∀ k, net k = .timedOut) (pm : Option String) (m : Nat) :
    ∀ d k r, r + d = m →
      (send_message net k pm r m).1 = false ∧
      countCalls (send_message net k pm r m).2 = d + 1 ∧
      sleepsOf (send_message net k pm r m).2 = (List.range' r d).map (2 ^ ·) := by
  intro d
  induction d with
  | zero =>
    intro k r hr
    rw [send_message_timedOut net k pm r m (hnet k)]
    have hnlt : ¬ r < m := by omega
    rw [if_neg hnlt]
    refine ⟨rfl, ?_, ?_⟩
    · simp [countCalls]
    · simp [sleepsOf]
  | succ d ih =>
    intro k r hr
    rw [send_message_timedOut net k pm r m (hnet k)]
    have hlt : r < m := by omega
    rw [if_pos hlt]
    obtain ⟨h1, h2, h3⟩ := ih (k + 1) (r + 1) (by omega)
    refine ⟨h1, ?_, ?_⟩
    · simp only [countCalls_call, countCalls_sleep, h2]
    · rw [sleepsOf_call, sleepsOf_sleep, h3, List.range'_succ r d 1]
      rfl

/-- C4, corrected: against an always-timing-out backend the adapter
performs `max_retries + 1` attempts (the initial attempt plus
`max_retries` retries) with exponential backoff 1s, 2s, 4s, … between
consecutive attempts, and then returns the failure result `False`. -/
theorem claim_C4_amended (net : Nat → SendOutcome)
    (hnet : ∀ k, net k = .timedOut) (pm : Option String) (m : Nat) :
    (send_message net 0 pm 0 m).1 = false ∧
    countCalls (send_message net 0 pm 0 m).2 = m + 1 ∧
    sleepsOf (send_message net 0 pm 0 m).2 = (List.range m).map (2 ^ ·) := by
  obtain ⟨h1, h2, h3⟩ := send_message_timeout_run net hnet pm m m 0 0 (by omega)
  refine ⟨h1, h2, ?_⟩
  rw [h3, List.range_eq_range' m]

/-- C4, witness for the amended claim at `max_retries = 3`. -/
theorem claim_C4_witness :
    (∀ k : Nat, (fun _ : Nat => SendOutcome.timedOut) k = SendOutcome.timedOut) ∧
    ((send_message (fun _ => SendOutcome.timedOut) 0 (some "Markdown") 0 3).1 = false ∧
      countCalls (send_message (fun _ => SendOutcome.timedOut) 0 (some "Markdown") 0 3).2 = 3 + 1 ∧
      sleepsOf (send_message (fun _ => SendOutcome.timedOut) 0 (some "Markdown") 0 3).2 =
        (List.range 3).map (2 ^ ·)) :=
  ⟨fun _ => rfl, claim_C4_amended (fun _ => .timedOut) (fun _ => rfl) (some "Markdown") 3⟩

/-- C4, counterexample to the claim as stated: with the configured
`max_retries = 3` and a backend that times out on every attempt, the
adapter performs 4 send attempts, not exactly `max_retries = 3`. -/
theorem claim_C4_counterexample :
    (send_message (fun _ => SendOutcome.timedOut) 0 (some "Markdown") 0 3).1 = false ∧
    countCalls (send_message (fun _ => SendOutcome.timedOut) 0 (some "Markdown") 0 3).2 ≠ 3 := by
  obtain ⟨h1, h2, -⟩ :=
    send_message_timeout_run (fun _ => .timedOut) (fun _ => rfl) (some "Markdown") 3 3 0 0 (by omega)
  refine ⟨h1, ?_⟩
  rw [h2]
  decide

/-- C5: a rate-limit error carrying `retry_after = s` on the first
attempt, with the second attempt succeeding and at least one retry
allowed, makes the adapter sleep exactly `s + 1` seconds (the server
duration plus a one-second safety margin) before the single retry: the
result is `True`, the trace is attempt, sleep `s + 1`, attempt, and the
total number of attempts is exactly 2. -/
theorem claim_C5 (net : Nat → SendOutcome) (s : Nat) (pm : Option String)
    (m : Nat) (h0 : net 0 = .retryAfter s) (h1 : net 1 = .success)
    (hm : 0 < m) :
    send_message net 0 pm 0 m = (true, [.call pm, .sleep (s + 1), .call pm]) ∧
    countCalls (send_message net 0 pm 0 m).2 = 2 ∧
    sleepsOf (send_message net 0 pm 0 m).2 = [s + 1] := by
  have hmain : send_message net 0 pm 0 m = (true, [.call pm, .sleep (s + 1), .call pm]) := by
    rw [send_message_retryAfter net 0 pm 0 m s h0, if_pos hm,
      send_message_success net 1 pm 1 m h1]
  refine ⟨hmain, ?_, ?_⟩
  · rw [hmain]
    simp [countCalls]
  · rw [hmain]
    simp [sleepsOf]

/-- C5, witness: `retry_after = 3`, `max_retries = 3`. -/
theorem claim_C5_witness :
    (fun k : Nat => if k = 0 then SendOutcome.retryAfter 3 else SendOutcome.success) 0 =
        SendOutcome.retryAfter 3 ∧
    (fun k : Nat => if k = 0 then SendOutcome.retryAfter 3 else SendOutcome.success) 1 =
        SendOutcome.success ∧
    0 < 3 ∧
    (send_message (fun k => if k = 0 then SendOutcome.retryAfter 3 else SendOutcome.success) 0
          (some "Markdown") 0 3 =
        (true, [.call (some "Markdown"), .sleep 4, .call (some "Markdown")]) ∧
      countCalls (send_message (fun k => if k = 0 then SendOutcome.retryAfter 3 else SendOutcome.success) 0
          (some "Markdown") 0 3).2 = 2 ∧
      sleepsOf (send_message (fun k => if k = 0 then SendOutcome.retryAfter 3 else SendOutcome.success) 0
          (some "Markdown") 0 3).2 = [4]) :=
  ⟨rfl, rfl, by decide,
    claim_C5 (fun k => if k = 0 then SendOutcome.retryAfter 3 else SendOutcome.success)
      3 (some "Markdown") 3 rfl rfl (by decide)⟩

/-- C6: on a terminal `TelegramError` whose message text contains
`"parse"` (case-insensitively) while a parse mode is set, exactly one
unformatted fallback attempt (parse mode `None`) is made, and the call
succeeds exactly when that fallback succeeds; on a terminal error whose
text does not contain `"parse"`, no fallback attempt is made and the
failure result `False` is returned after the single attempt. -/
theorem claim_C6 (net : Nat → SendOutcome) (p msg : String) (m : Nat)
    (hp : p ≠ "") (h0 : net 0 = .otherError msg) :
    (containsParse msg = true →
      (send_message net 0 (some p) 0 m).2 = [.call (some p), .call none] ∧
        ((send_message net 0 (some p) 0 m).1 = true ↔ net 1 = .success)) ∧
    (containsParse msg = false →
      send_message net 0 (some p) 0 m = (false, [.call (some p)])) := by
  have hpm : pmTruthy (some p) = true := by
    simp [pmTruthy, hp]
  rw [send_message_otherError net 0 (some p) 0 m msg h0]
  constructor
  · intro hcp
    rw [hpm, hcp]
    cases hn : net 1 <;> simp [hn]
  · intro hcp
    rw [hpm, hcp]
    simp

/-- C6, witness: a parse-class terminal error followed by a successful
fallback, and a non-parse terminal error. -/
theorem claim_C6_witness :
    "Markdown" ≠ "" ∧
    (fun k : Nat => if k = 0 then SendOutcome.otherError "Can not parse entities" else SendOutcome.success) 0 =
      SendOutcome.otherError "Can not parse entities" ∧
    ((containsParse "Can not parse entities" = true →
      (send_message (fun k => if k = 0 then SendOutcome.otherError "Can not parse entities" else SendOutcome.success)
          0 (some "Markdown") 0 3).2 = [.call (some "Markdown"), .call none] ∧
        ((send_message (fun k => if k = 0 then SendOutcome.otherError "Can not parse entities" else SendOutcome.success)
            0 (some "Markdown") 0 3).1 = true ↔
          (fun k : Nat => if k = 0 then SendOutcome.otherError "Can not parse entities" else SendOutcome.success) 1 =
            SendOutcome.success)) ∧
      (containsParse "Can not parse entities" = false →
        send_message (fun k => if k = 0 then SendOutcome.otherError "Can not parse entities" else SendOutcome.success)
            0 (some "Markdown") 0 3 = (false, [.call (some "Markdown")]))) :=
  ⟨by decide, rfl,
    claim_C6 (fun k => if k = 0 then SendOutcome.otherError "Can not parse entities" else SendOutcome.success)
      "Markdown" "Can not parse entities" 3 (by decide) rfl⟩

/-! ## Publisher claims -/

/-- C7: publishing is fire-and-forget.  (1) With unconfigured
credentials, constructing and connecting the publisher leaves it in
no-op mode: every `publish_signal` call returns `None` and performs no
backend call at all.  (2) When the backend append raises, the error is
caught and `None` is returned — no exception reaches the caller (the
embedding is a total function).  (3) A `publish_signal` call depends on
the credentials only through the connection state computed at
construction/connect time: two publisher states with the same `_redis`
state behave identically, whatever their credentials. -/
theorem claim_C7 :
    (∀ (c : Credentials) (ok : Bool) (ty ticker companyName : String) (price : Int)
        (source timestamp : String) (scen : Option Scenario)
        (extra : List (String × Val)) (appendRes : Option String),
      credentialsConfigured c = false →
      publish_signal (SignalPublisher.connect (SignalPublisher.init c) ok)
        ty ticker companyName price source timestamp scen extra appendRes = ⟨none, []⟩) ∧
    (∀ (st : PubState) (ty ticker companyName : String) (price : Int)
        (source timestamp : String) (scen : Option Scenario)
        (extra : List (String × Val)),
      (publish_signal st ty ticker companyName price source timestamp scen extra none).result =
        none) ∧
    (∀ (s1 s2 : PubState) (ty ticker companyName : String) (price : Int)
        (source timestamp : String) (scen : Option Scenario)
        (extra : List (String × Val)) (appendRes : Option String),
      s1.redis = s2.redis →
      publish_signal s1 ty ticker companyName price source timestamp scen extra appendRes =
        publish_signal s2 ty ticker companyName price source timestamp scen extra appendRes) := by
  refine ⟨?_, ?_, ?_⟩
  · intro c ok ty ticker companyName price source timestamp scen extra appendRes hc
    have hconn : SignalPublisher.connect (SignalPublisher.init c) ok =
        SignalPublisher.init c := by
      simp [SignalPublisher.connect, SignalPublisher.init, hc]
    rw [hconn]
    rfl
  · intro st ty ticker companyName price source timestamp scen extra
    by_cases h : st.redis = false
    · simp [publish_signal, h]
    · simp [publish_signal, h]
  · intro s1 s2 ty ticker companyName price source timestamp scen extra appendRes h
    simp only [publish_signal, h]

/-- C7, witness: an unconfigured publisher, a failing append, and two
states differing only in credentials. -/
theorem claim_C7_witness :
    credentialsConfigured ⟨none, none⟩ = false ∧
    publish_signal (SignalPublisher.connect (SignalPublisher.init ⟨none, none⟩) true)
      "BUY" "005930" "Samsung" 82000 "AI" "ts" none [] (some "1-0") = ⟨none, []⟩ ∧
    (publish_signal ⟨⟨some "u", some "t"⟩, true⟩
      "BUY" "005930" "Samsung" 82000 "AI" "ts" none [] none).result = none ∧
    publish_signal ⟨⟨some "u", some "t"⟩, true⟩
        "BUY" "005930" "Samsung" 82000 "AI" "ts" none [] (some "1-0") =
      publish_signal ⟨⟨some "x", some "y"⟩, true⟩
        "BUY" "005930" "Samsung" 82000 "AI" "ts" none [] (some "1-0") :=
  ⟨by decide,
    claim_C7.1 ⟨none, none⟩ true "BUY" "005930" "Samsung" 82000 "AI" "ts" none [] (some "1-0")
      (by decide),
    claim_C7.2.1 ⟨⟨some "u", some "t"⟩, true⟩ "BUY" "005930" "Samsung" 82000 "AI" "ts" none [],
    claim_C7.2.2 ⟨⟨some "u", some "t"⟩, true⟩ ⟨⟨some "x", some "y"⟩, true⟩
      "BUY" "005930" "Samsung" 82000 "AI" "ts" none [] (some "1-0") rfl⟩

/-- C9: with `--dry-run` set, a run of any number of poll cycles over
any stream contents makes no call into the execution adapter. -/
theorem claim_C9 (jl : String → Option Signal) (stream : List Entry)
    (lastId n : Nat) : runTradeCalls jl true stream lastId n = [] := by
  unfold runTradeCalls
  have h : ∀ l : List (Nat × Signal),
      (l.map (fun p => handle_signal true p.2)).flatten = [] := by
    intro l
    induction l with
    | nil => rfl
    | cons a t ih =>
      simp only [List.map_cons, List.flatten_cons, ih, List.append_nil]
      simp [handle_signal]
  exact h _

/-- C10: every record published by `publish_sell_signal` has the fixed
`source` value `"AI분석"` and carries none of the six scenario
projection fields — the SELL wrapper exposes no source or scenario
parameter. -/
theorem claim_C10 (st : PubState) (ticker companyName : String)
    (price buyPrice profitRate : Int) (sellReason : String)
    (tr : Option TradeResult) (timestamp : String) (appendRes : Option String)
    (rec : List (String × Val))
    (hrec : rec ∈ (publish_sell_signal st ticker companyName price buyPrice profitRate
        sellReason tr timestamp appendRes).appends) :
    dictGet rec "source" = some (Val.s "AI분석") ∧
    dictGet rec "target_price" = none ∧
    dictGet rec "stop_loss" = none ∧
    dictGet rec "investment_period" = none ∧
    dictGet rec "sector" = none ∧
    dictGet rec "rationale" = none ∧
    dictGet rec "buy_score" = none := by
  unfold publish_sell_signal publish_signal at hrec
  by_cases h : st.redis = false
  · rw [if_pos h] at hrec
    simp at hrec
  · rw [if_neg h] at hrec
    have hrec2 : rec = buildSignalData "SELL" ticker companyName price "AI분석" timestamp
        none (sellExtra buyPrice profitRate sellReason tr) := by
      cases appendRes <;> simpa using hrec
    subst hrec2
    cases tr with
    | none => exact ⟨rfl, rfl, rfl, rfl, rfl, rfl, rfl⟩
    | some t => exact ⟨rfl, rfl, rfl, rfl, rfl, rfl, rfl⟩

/-- C10, witness: a concrete SELL publication. -/
theorem claim_C10_witness :
    [("type", Val.s "SELL"), ("ticker", Val.s "005930"), ("company_name", Val.s "Samsung"),
        ("price", Val.n 90000), ("source", Val.s "AI분석"), ("timestamp", Val.s "ts"),
        ("buy_price", Val.n 82000), ("profit_rate", Val.n 9), ("sell_reason", Val.s "target")] ∈
      (publish_sell_signal ⟨⟨some "u", some "t"⟩, true⟩ "005930" "Samsung" 90000 82000 9
        "target" none "ts" (some "1-0")).appends ∧
    (dictGet [("type", Val.s "SELL"), ("ticker", Val.s "005930"),
        ("company_name", Val.s "Samsung"), ("price", Val.n 90000),
        ("source", Val.s "AI분석"), ("timestamp", Val.s "ts"), ("buy_price", Val.n 82000),
        ("profit_rate", Val.n 9), ("sell_reason", Val.s "target")] "source" =
        some (Val.s "AI분석") ∧
      dictGet [("type", Val.s "SELL"), ("ticker", Val.s "005930"),
        ("company_name", Val.s "Samsung"), ("price", Val.n 90000),
        ("source", Val.s "AI분석"), ("timestamp", Val.s "ts"), ("buy_price", Val.n 82000),
        ("profit_rate", Val.n 9), ("sell_reason", Val.s "target")] "target_price" = none ∧
      dictGet [("type", Val.s "SELL"), ("ticker", Val.s "005930"),
        ("company_name", Val.s "Samsung"), ("price", Val.n 90000),
        ("source", Val.s "AI분석"), ("timestamp", Val.s "ts"), ("buy_price", Val.n 82000),
        ("profit_rate", Val.n 9), ("sell_reason", Val.s "target")] "stop_loss" = none ∧
      dictGet [("type", Val.s "SELL"), ("ticker", Val.s "005930"),
        ("company_name", Val.s "Samsung"), ("price", Val.n 90000),
        ("source", Val.s "AI분석"), ("timestamp", Val.s "ts"), ("buy_price", Val.n 82000),
        ("profit_rate", Val.n 9), ("sell_reason", Val.s "target")] "investment_period" = none ∧
      dictGet [("type", Val.s "SELL"), ("ticker", Val.s "005930"),
        ("company_name", Val.s "Samsung"), ("price", Val.n 90000),
        ("source", Val.s "AI분석"), ("timestamp", Val.s "ts"), ("buy_price", Val.n 82000),
        ("profit_rate", Val.n 9), ("sell_reason", Val.s "target")] "sector" = none ∧
      dictGet [("type", Val.s "SELL"), ("ticker", Val.s "005930"),
        ("company_name", Val.s "Samsung"), ("price", Val.n 90000),
        ("source", Val.s "AI분석"), ("timestamp", Val.s "ts"), ("buy_price", Val.n 82000),
        ("profit_rate", Val.n 9), ("sell_reason", Val.s "target")] "rationale" = none ∧
      dictGet [("type", Val.s "SELL"), ("ticker", Val.s "005930"),
        ("company_name", Val.s "Samsung"), ("price", Val.n 90000),
        ("source", Val.s "AI분석"), ("timestamp", Val.s "ts"), ("buy_price", Val.n 82000),
        ("profit_rate", Val.n 9), ("sell_reason", Val.s "target")] "buy_score" = none) :=
  ⟨by decide,
    claim_C10 ⟨⟨some "u", some "t"⟩, true⟩ "005930" "Samsung" 90000 82000 9 "target" none "ts"
      (some "1-0") _ (by decide)⟩

/-! ## Consumer-loop lemmas -/

theorem processBatch_cons_error (jl : String → Option Signal) (e : Entry)
    (rest : List Entry) (l : Nat) (h : entryStep jl e.fields = .error ()) :
    processBatch jl (e :: rest) l = ⟨l, [], true⟩ := by
  simp [processBatch, h]

theorem processBatch_cons_skip (jl : String → Option Signal) (e : Entry)
    (rest : List Entry) (l : Nat) (h : entryStep jl e.fields = .ok none) :
    processBatch jl (e :: rest) l = processBatch jl rest e.id := by
  simp [processBatch, h]

theorem processBatch_cons_disp (jl : String → Option Signal) (e : Entry)
    (rest : List Entry) (l : Nat) (sig : Signal)
    (h : entryStep jl e.fields = .ok (some sig)) :
    processBatch jl (e :: rest) l =
      ⟨(processBatch jl rest e.id).lastId,
        (e.id, sig) :: (processBatch jl rest e.id).dispatched,
        (processBatch jl rest e.id).aborted⟩ := by
  simp [processBatch, h]

/-- Entries returned by `xread` are stream entries with id strictly
above the cursor. -/
theorem mem_xread (stream : List Entry) (c cnt : Nat) (e : Entry)
    (h : e ∈ xread stream c cnt) : e ∈ stream ∧ c < e.id := by
  unfold xread at h
  have h1 := List.mem_of_mem_take h
  refine ⟨List.mem_of_mem_filter h1, ?_⟩
  have h2 := (List.mem_filter.mp h1).2
  simpa using h2

/-- Every dispatched pair of a batch comes from an entry of the batch
that decoded to that signal. -/
theorem processBatch_dispatched_mem (jl : String → Option Signal) :
    ∀ (batch : List Entry) (l : Nat),
      ∀ p ∈ (processBatch jl batch l).dispatched,
        ∃ e ∈ batch, e.id = p.1 ∧ entryStep jl e.fields = .ok (some p.2) := by
  intro batch
  induction batch with
  | nil => intro l p hp; simp [processBatch] at hp
  | cons e rest ih =>
    intro l p hp
    cases hs : entryStep jl e.fields with
    | error u =>
      cases u
      rw [processBatch_cons_error jl e rest l hs] at hp
      simp at hp
    | ok o =>
      cases o with
      | none =>
        rw [processBatch_cons_skip jl e rest l hs] at hp
        obtain ⟨x, hx, hxp⟩ := ih e.id p hp
        exact ⟨x, List.mem_cons_of_mem e hx, hxp⟩
      | some sig =>
        rw [processBatch_cons_disp jl e rest l sig hs] at hp
        rcases List.mem_cons.mp hp with rfl | hp2
        · exact ⟨e, List.mem_cons_self e rest, rfl, hs⟩
        · obtain ⟨x, hx, hxp⟩ := ih e.id p hp2
          exact ⟨x, List.mem_cons_of_mem e hx, hxp⟩

/-- The final `last_id` of a batch is either the starting one or the id
of a batch entry that did not raise. -/
theorem processBatch_lastId_cases (jl : String → Option Signal) :
    ∀ (batch : List Entry) (l : Nat),
      (processBatch jl batch l).lastId = l ∨
        ∃ e ∈ batch, (processBatch jl batch l).lastId = e.id ∧
          entryStep jl e.fields ≠ .error () := by
  intro batch
  induction batch with
  | nil => intro l; left; rfl
  | cons e rest ih =>
    intro l
    cases hs : entryStep jl e.fields with
    | error u =>
      cases u
      left
      rw [processBatch_cons_error jl e rest l hs]
    | ok o =>
      have hne : entryStep jl e.fields ≠ .error () := by
        rw [hs]
        intro hc
        cases hc
      have hkey : (processBatch jl rest e.id).lastId = e.id ∨
          ∃ x ∈ rest, (processBatch jl rest e.id).lastId = x.id ∧
            entryStep jl x.fields ≠ .error () := ih e.id
      cases o with
      | none =>
        rw [processBatch_cons_skip jl e rest l hs]
        rcases hkey with h | ⟨x, hx, hxx⟩
        · exact Or.inr ⟨e, List.mem_cons_self e rest, h, hne⟩
        · exact Or.inr ⟨x, List.mem_cons_of_mem e hx, hxx⟩
      | some sig =>
        rw [processBatch_cons_disp jl e rest l sig hs]
        rcases hkey with h | ⟨x, hx, hxx⟩
        · exact Or.inr ⟨e, List.mem_cons_self e rest, h, hne⟩
        · exact Or.inr ⟨x, List.mem_cons_of_mem e hx, hxx⟩

/-- One poll cycle never moves the cursor backwards. -/
theorem pollCycle_lastId_mono (jl : String → Option Signal)
    (stream : List Entry) (c : Nat) : c ≤ (pollCycle jl stream c).lastId := by
  rcases processBatch_lastId_cases jl (xread stream c 10) c with h | ⟨e, he, heq, -⟩
  · unfold pollCycle
    omega
  · have hgt := (mem_xread stream c 10 e he).2
    unfold pollCycle
    omega

/-- Over any number of cycles the cursor never moves backwards. -/
theorem runCycles_lastId_mono (jl : String → Option Signal) (stream : List Entry) :
    ∀ (n c : Nat), c ≤ (runCycles jl stream c n).lastId := by
  intro n
  induction n with
  | zero => intro c; exact Nat.le_refl c
  | succ n ih =>
    intro c
    have h1 := pollCycle_lastId_mono jl stream c
    have h2 := ih (pollCycle jl stream c).lastId
    simp only [runCycles]
    omega

/-- Safety of dispatch: every pair dispatched in a run starting at
cursor `c` has an id strictly above `c` and is the id of some stream
entry. -/
theorem runCycles_dispatched_safe (jl : String → Option Signal) (stream : List Entry) :
    ∀ (n c : Nat), ∀ p ∈ (runCycles jl stream c n).dispatched,
      c < p.1 ∧ ∃ e ∈ stream, e.id = p.1 := by
  intro n
  induction n with
  | zero => intro c p hp; simp [runCycles] at hp
  | succ n ih =>
    intro c p hp
    simp only [runCycles] at hp
    rw [List.mem_append] at hp
    rcases hp with hp | hp
    · obtain ⟨e, he, heid, -⟩ := processBatch_dispatched_mem jl (xread stream c 10) c p hp
      obtain ⟨hes, hgt⟩ := mem_xread stream c 10 e he
      exact ⟨heid ▸ hgt, e, hes, heid⟩
    · have hc1 := pollCycle_lastId_mono jl stream c
      obtain ⟨h1, h2⟩ := ih (pollCycle jl stream c).lastId p hp
      exact ⟨by omega, h2⟩

/-- In a strictly increasing list of naturals, every element is at most
the last element. -/
theorem pairwise_lt_le_getLastD :
    ∀ (L : List Nat), L.Pairwise (· < ·) → ∀ x ∈ L, ∀ d : Nat, x ≤ L.getLastD d := by
  intro L
  induction L with
  | nil => intro _ x hx; cases hx
  | cons a t ih =>
    intro hp x hx d
    rw [List.getLastD_cons]
    obtain ⟨hhead, htail⟩ := List.pairwise_cons.mp hp
    rcases List.mem_cons.mp hx with rfl | hxt
    · cases t with
      | nil => simp [List.getLastD]
      | cons b t' =>
        have hab : x < b := hhead b (List.mem_cons_self b t')
        have hb := ih htail b (List.mem_cons_self b t') x
        omega
    · exact ih htail x hxt a

/-- The initial cursor without `--from-beginning` is the id of the
newest existing entry (`0` for an empty stream). -/
theorem resolveStart_false_eq (orig : List Entry) :
    resolveStart false orig = (orig.map (·.id)).getLastD 0 := by
  unfold resolveStart xrevrange1
  rw [List.getLastD_eq_getLast?, List.getLast?_map]
  cases orig.getLast? <;> rfl

/-- On a sorted stream, the initial cursor without `--from-beginning`
is at least every existing entry's id. -/
theorem resolveStart_false_ge (orig : List Entry)
    (hs : orig.Pairwise (fun a b => a.id < b.id)) :
    ∀ e ∈ orig, e.id ≤ resolveStart false orig := by
  intro e he
  rw [resolveStart_false_eq]
  refine pairwise_lt_le_getLastD (orig.map (·.id)) ?_ e.id ?_ 0
  · exact List.pairwise_map.mpr hs
  · exact List.mem_map_of_mem (·.id) he

/-- C8: the initial cursor is `0` with `--from-beginning` and the
newest existing id (or `0` when empty) without it; consequently a
consumer started without `--from-beginning` on a stream holding the
entries `orig`, which then grows to `orig ++ post`, never dispatches
any entry of `orig` — every dispatched id belongs to an entry appended
after startup. -/
theorem claim_C8 (jl : String → Option Signal) (orig post : List Entry) (n : Nat)
    (hs : (orig ++ post).Pairwise (fun a b => a.id < b.id)) :
    resolveStart true (orig ++ post) = 0 ∧
    resolveStart false orig = (orig.map (·.id)).getLastD 0 ∧
    (∀ p ∈ (runCycles jl (orig ++ post) (resolveStart false orig) n).dispatched,
      p.1 ∉ orig.map (·.id) ∧ ∃ e ∈ post, e.id = p.1) := by
  have horig : orig.Pairwise (fun a b => a.id < b.id) :=
    hs.sublist (List.sublist_append_left orig post)
  refine ⟨rfl, resolveStart_false_eq orig, ?_⟩
  intro p hp
  obtain ⟨hgt, e, hes, heid⟩ :=
    runCycles_dispatched_safe jl (orig ++ post) n (resolveStart false orig) p hp
  constructor
  · intro hmem
    obtain ⟨x, hx, hxid⟩ := List.mem_map.mp hmem
    have := resolveStart_false_ge orig horig x hx
    omega
  · rcases List.mem_append.mp hes with hmo | hmp
    · have := resolveStart_false_ge orig horig e hmo
      omega
    · exact ⟨e, hmp, heid⟩

/-- A concrete signal used to instantiate the universally quantified
theorems. -/
def sigW : Signal :=
  ⟨"BUY", "005930", "Samsung", 82000⟩

/-- A concrete `json.loads` oracle: the wire string `"J"` decodes to
`sigW`, everything else raises. -/
def jlW : String → Option Signal :=
  fun s => if s = "J" then some sigW else none

/-- C8, witness: a stream of two pre-existing entries and one entry
appended after startup; only the appended entry is dispatched. -/
theorem claim_C8_witness :
    ([⟨1, ["data", "J"]⟩, ⟨2, ["data", "J"]⟩] ++ [⟨5, ["data", "J"]⟩] :
        List Entry).Pairwise (fun a b => a.id < b.id) ∧
    (5, sigW) ∈ (runCycles jlW ([⟨1, ["data", "J"]⟩, ⟨2, ["data", "J"]⟩] ++ [⟨5, ["data", "J"]⟩])
      (resolveStart false [⟨1, ["data", "J"]⟩, ⟨2, ["data", "J"]⟩]) 1).dispatched ∧
    ((5 : Nat) ∉ ([⟨1, ["data", "J"]⟩, ⟨2, ["data", "J"]⟩] : List Entry).map (·.id) ∧
      ∃ e ∈ ([⟨5, ["data", "J"]⟩] : List Entry), e.id = (5 : Nat)) :=
  ⟨by decide, by decide,
    (claim_C8 jlW [⟨1, ["data", "J"]⟩, ⟨2, ["data", "J"]⟩] [⟨5, ["data", "J"]⟩] 1
      (by decide)).2.2 (5, sigW) (by decide)⟩

/-- When every entry of a batch decodes to a signal, the batch trace is
the canonical interleaving: for each entry in batch order, the handler
call immediately followed by the cursor assignment to that entry's
id. -/
theorem batchTrace_all_disp (jl : String → Option Signal) :
    ∀ batch : List Entry, (∀ e ∈ batch, dispatchable jl e = true) →
      batchTrace jl batch =
        (batch.map (fun e => [Ev.disp e.id, Ev.curs e.id])).flatten := by
  intro batch
  induction batch with
  | nil => intro _; rfl
  | cons e rest ih =>
    intro h
    have he := h e (List.mem_cons_self e rest)
    unfold dispatchable at he
    cases hs : entryStep jl e.fields with
    | error u => rw [hs] at he; simp at he
    | ok o =>
      cases o with
      | none => rw [hs] at he; simp at he
      | some sig =>
        have hrest := ih (fun x hx => h x (List.mem_cons_of_mem e hx))
        simp only [batchTrace, hs, List.map_cons, List.flatten_cons, hrest]
        rfl

/-- The result of `xread` on a sorted stream is sorted. -/
theorem xread_sorted (stream : List Entry) (c cnt : Nat)
    (hs : stream.Pairwise (fun a b => a.id < b.id)) :
    (xread stream c cnt).Pairwise (fun a b => a.id < b.id) :=
  hs.sublist ((List.take_sublist cnt _).trans (List.filter_sublist stream))

/-- C3: for a poll batch on a sorted stream whose entries all decode,
the dispatch trace is exactly handler-then-cursor for each entry in
batch order — entries are handled one at a time, the cursor is set to
an entry's id immediately after its handler returns and never before,
never in bulk — and the batch ids are strictly ascending. -/
theorem claim_C3 (jl : String → Option Signal) (stream : List Entry) (c : Nat)
    (hs : stream.Pairwise (fun a b => a.id < b.id))
    (hd : ∀ e ∈ xread stream c 10, dispatchable jl e = true) :
    batchTrace jl (xread stream c 10) =
      ((xread stream c 10).map (fun e => [Ev.disp e.id, Ev.curs e.id])).flatten ∧
    ((xread stream c 10).map (·.id)).Pairwise (· < ·) := by
  refine ⟨batchTrace_all_disp jl (xread stream c 10) hd, ?_⟩
  exact List.pairwise_map.mpr (xread_sorted stream c 10 hs)

/-- C3, witness: a three-entry sorted batch of decodable entries. -/
theorem claim_C3_witness :
    ([⟨1, ["data", "J"]⟩, ⟨2, ["data", "J"]⟩, ⟨5, ["data", "J"]⟩] :
        List Entry).Pairwise (fun a b => a.id < b.id) ∧
    (∀ e ∈ xread [⟨1, ["data", "J"]⟩, ⟨2, ["data", "J"]⟩, ⟨5, ["data", "J"]⟩] 0 10,
      dispatchable jlW e = true) ∧
    (batchTrace jlW (xread [⟨1, ["data", "J"]⟩, ⟨2, ["data", "J"]⟩, ⟨5, ["data", "J"]⟩] 0 10) =
      ((xread [⟨1, ["data", "J"]⟩, ⟨2, ["data", "J"]⟩, ⟨5, ["data", "J"]⟩] 0 10).map
        (fun e => [Ev.disp e.id, Ev.curs e.id])).flatten ∧
    ((xread [⟨1, ["data", "J"]⟩, ⟨2, ["data", "J"]⟩, ⟨5, ["data", "J"]⟩] 0 10).map
      (·.id)).Pairwise (· < ·)) :=
  ⟨by decide, by decide,
    claim_C3 jlW [⟨1, ["data", "J"]⟩, ⟨2, ["data", "J"]⟩, ⟨5, ["data", "J"]⟩] 0
      (by decide) (by decide)⟩

/-- Batch processing stops at the first raising entry: everything after
it in the batch is never examined. -/
theorem processBatch_stop (jl : String → Option Signal) (bad : Entry)
    (hbad : entryStep jl bad.fields = .error ()) :
    ∀ (xs ys : List Entry) (l : Nat),
      processBatch jl (xs ++ bad :: ys) l = processBatch jl (xs ++ [bad]) l := by
  intro xs
  induction xs with
  | nil =>
    intro ys l
    simp only [List.nil_append]
    rw [processBatch_cons_error jl bad ys l hbad,
      processBatch_cons_error jl bad [] l hbad]
  | cons x xs ih =>
    intro ys l
    simp only [List.cons_append]
    cases hs : entryStep jl x.fields with
    | error u =>
      cases u
      rw [processBatch_cons_error jl x (xs ++ bad :: ys) l hs,
        processBatch_cons_error jl x (xs ++ [bad]) l hs]
    | ok o =>
      cases o with
      | none =>
        rw [processBatch_cons_skip jl x (xs ++ bad :: ys) l hs,
          processBatch_cons_skip jl x (xs ++ [bad]) l hs]
        exact ih ys x.id
      | some sig =>
        rw [processBatch_cons_disp jl x (xs ++ bad :: ys) l sig hs,
          processBatch_cons_disp jl x (xs ++ [bad]) l sig hs, ih ys x.id]

/-- One poll cycle on a sorted stream containing a raising entry at id
`poison.id` keeps the cursor strictly below `poison.id` and dispatches
only ids strictly below `poison.id`, provided the cursor starts below
it. -/
theorem pollCycle_poison (jl : String → Option Signal) (A B : List Entry)
    (poison : Entry) (l : Nat)
    (hs : (A ++ poison :: B).Pairwise (fun a b => a.id < b.id))
    (hbad : entryStep jl poison.fields = .error ())
    (hl : l < poison.id) :
    (pollCycle jl (A ++ poison :: B) l).lastId < poison.id ∧
    ∀ p ∈ (pollCycle jl (A ++ poison :: B) l).dispatched, p.1 < poison.id := by
  set S := A ++ poison :: B with hS
  set batch := xread S l 10 with hbatch
  have hbsorted : batch.Pairwise (fun a b => a.id < b.id) := xread_sorted S l 10 hs
  -- every batch entry that does not raise has id < poison.id, and we
  -- show the dispatched/lastId entries satisfy that via a case split
  -- on whether the poison entry made it into this batch
  by_cases hmem : poison ∈ batch
  · obtain ⟨xs, ys, hxy⟩ := List.append_of_mem hmem
    have hxslt : ∀ x ∈ xs, x.id < poison.id := by
      intro x hx
      have := (List.pairwise_append.mp (hxy ▸ hbsorted)).2.2 x hx poison
        (List.mem_cons_self poison ys)
      exact this
    have hstop : processBatch jl batch l = processBatch jl (xs ++ [poison]) l := by
      rw [hxy]
      exact processBatch_stop jl poison hbad xs ys l
    constructor
    · show (processBatch jl batch l).lastId < poison.id
      rw [hstop]
      rcases processBatch_lastId_cases jl (xs ++ [poison]) l with h | ⟨e, he, heq, hne⟩
      · omega
      · rcases List.mem_append.mp he with hexs | hep
        · have := hxslt e hexs; omega
        · simp at hep
          rw [hep] at hne
          exact absurd hbad hne
    · intro p hp
      show p.1 < poison.id
      rw [show (pollCycle jl S l) = processBatch jl batch l from rfl, hstop] at hp
      obtain ⟨e, he, heid, hok⟩ := processBatch_dispatched_mem jl (xs ++ [poison]) l p hp
      rcases List.mem_append.mp he with hexs | hep
      · have := hxslt e hexs; omega
      · simp at hep
        rw [hep, hbad] at hok
        cases hok
  · -- the poison entry is beyond this batch; every batch entry precedes
    -- it in the filtered view, hence has a smaller id
    have hltall : ∀ e ∈ batch, e.id < poison.id := by
      intro e he
      have hpF : poison ∈ S.filter (fun x => decide (l < x.id)) := by
        rw [List.mem_filter]
        refine ⟨?_, by simpa using hl⟩
        rw [hS]
        exact List.mem_append.mpr (Or.inr (List.mem_cons_self poison B))
      have hFsorted : (S.filter (fun x => decide (l < x.id))).Pairwise
          (fun a b => a.id < b.id) := hs.sublist (List.filter_sublist S)
      have hsplit := List.take_append_drop 10 (S.filter (fun x => decide (l < x.id)))
      have hpDrop : poison ∈ (S.filter (fun x => decide (l < x.id))).drop 10 := by
        rcases List.mem_append.mp (hsplit ▸ hpF) with h | h
        · exact absurd h hmem
        · exact h
      have hcross := (List.pairwise_append.mp (hsplit ▸ hFsorted)).2.2
      exact hcross e he poison hpDrop
    constructor
    · show (processBatch jl batch l).lastId < poison.id
      rcases processBatch_lastId_cases jl batch l with h | ⟨e, he, heq, -⟩
      · omega
      · have := hltall e he; omega
    · intro p hp
      obtain ⟨e, he, heid, -⟩ := processBatch_dispatched_mem jl batch l p hp
      have := hltall e he
      omega

/-- C1, amended: a malformed entry aborts the poll cycle at that entry:
over any number of poll cycles the cursor never advances to or past the
malformed entry's id and only entries before it are ever dispatched —
well-formed entries after it are never dispatched, so the poison entry
stalls the stream. -/
theorem claim_C1_amended (jl : String → Option Signal) (A B : List Entry)
    (poison : Entry) (n c : Nat)
    (hs : (A ++ poison :: B).Pairwise (fun a b => a.id < b.id))
    (hbad : entryStep jl poison.fields = .error ())
    (hc : c < poison.id) :
    (runCycles jl (A ++ poison :: B) c n).lastId < poison.id ∧
    ∀ p ∈ (runCycles jl (A ++ poison :: B) c n).dispatched, p.1 < poison.id := by
  induction n generalizing c with
  | zero =>
    refine ⟨hc, ?_⟩
    intro p hp
    simp [runCycles] at hp
  | succ n ih =>
    obtain ⟨hcy1, hcy2⟩ := pollCycle_poison jl A B poison c hs hbad hc
    obtain ⟨hr1, hr2⟩ := ih (pollCycle jl (A ++ poison :: B) c).lastId hcy1
    refine ⟨hr1, ?_⟩
    intro p hp
    simp only [runCycles] at hp
    rcases List.mem_append.mp hp with h | h
    · exact hcy2 p h
    · exact hr2 p h

/-- The stream used to exhibit the poison-entry behaviour: entry 2's
`data` field is not valid JSON, entries 1 and 3 are well-formed. -/
def streamP : List Entry :=
  [⟨1, ["data", "J"]⟩, ⟨2, ["data", "BAD"]⟩, ⟨3, ["data", "J"]⟩]

/-- C1, counterexample to the claim as stated: after five poll cycles
on a stream whose second entry is malformed, only entry 1 has been
dispatched, the cursor is still 1 — it never advanced past the poison
entry's id 2 — and the well-formed entry 3 was never dispatched. -/
theorem claim_C1_counterexample :
    (runCycles jlW streamP 0 5).lastId = 1 ∧
    ¬ 2 ≤ (runCycles jlW streamP 0 5).lastId ∧
    (runCycles jlW streamP 0 5).dispatched = [(1, sigW)] ∧
    dispatchable jlW ⟨3, ["data", "J"]⟩ = true ∧
    ∀ p ∈ (runCycles jlW streamP 0 5).dispatched, p.1 ≠ 3 := by
  decide

/-- C1, witness for the amended claim on the concrete poison stream. -/
theorem claim_C1_witness :
    ([⟨1, ["data", "J"]⟩] ++ ⟨2, ["data", "BAD"]⟩ :: [⟨3, ["data", "J"]⟩] :
        List Entry).Pairwise (fun a b => a.id < b.id) ∧
    entryStep jlW (Entry.fields ⟨2, ["data", "BAD"]⟩) = .error () ∧
    (0 : Nat) < Entry.id ⟨2, ["data", "BAD"]⟩ ∧
    ((runCycles jlW ([⟨1, ["data", "J"]⟩] ++ ⟨2, ["data", "BAD"]⟩ :: [⟨3, ["data", "J"]⟩])
        0 5).lastId < Entry.id ⟨2, ["data", "BAD"]⟩ ∧
      ∀ p ∈ (runCycles jlW ([⟨1, ["data", "J"]⟩] ++ ⟨2, ["data", "BAD"]⟩ :: [⟨3, ["data", "J"]⟩])
        0 5).dispatched, p.1 < Entry.id ⟨2, ["data", "BAD"]⟩) :=
  ⟨by decide, by decide, by decide,
    claim_C1_amended jlW [⟨1, ["data", "J"]⟩] [⟨3, ["data", "J"]⟩] ⟨2, ["data", "BAD"]⟩ 5 0
      (by decide) (by decide) (by decide)⟩

/-- The `getLastD` of a nonempty list is one of its elements. -/
theorem getLastD_mem_cons : ∀ (x : Nat) (xs : List Nat) (d : Nat),
    (x :: xs).getLastD d ∈ x :: xs := by
  intro x xs
  induction xs generalizing x with
  | nil => intro d; rw [List.getLastD_cons]; exact List.mem_cons_self x []
  | cons y ys ih =>
    intro d
    rw [List.getLastD_cons]
    exact List.mem_cons_of_mem x (ih y x)

/-- When every batch entry decodes, the batch dispatches all of them in
order and leaves the cursor at the batch's last id. -/
theorem processBatch_allDisp (jl : String → Option Signal) :
    ∀ (batch : List Entry) (l : Nat), (∀ e ∈ batch, dispatchable jl e = true) →
      (processBatch jl batch l).dispatched.map Prod.fst = batch.map (·.id) ∧
      (processBatch jl batch l).lastId = (batch.map (·.id)).getLastD l := by
  intro batch
  induction batch with
  | nil => intro l _; exact ⟨rfl, rfl⟩
  | cons e rest ih =>
    intro l h
    have he := h e (List.mem_cons_self e rest)
    unfold dispatchable at he
    cases hs : entryStep jl e.fields with
    | error u => rw [hs] at he; simp at he
    | ok o =>
      cases o with
      | none => rw [hs] at he; simp at he
      | some sig =>
        obtain ⟨ih1, ih2⟩ := ih e.id (fun x hx => h x (List.mem_cons_of_mem e hx))
        rw [processBatch_cons_disp jl e rest l sig hs]
        refine ⟨?_, ?_⟩
        · simp only [List.map_cons, ih1]
        · simp only [List.map_cons, List.getLastD_cons]
          exact ih2

/-- One poll cycle on a sorted, fully well-formed stream dispatches
exactly the first ten entries above the cursor and moves the cursor so
that exactly the remaining entries stay above it. -/
theorem pollCycle_allDisp (jl : String → Option Signal) (stream : List Entry)
    (hs : stream.Pairwise (fun a b => a.id < b.id))
    (hd : ∀ e ∈ stream, dispatchable jl e = true) (l : Nat) :
    (pollCycle jl stream l).dispatched.map Prod.fst =
      ((stream.filter (fun e => decide (l < e.id))).take 10).map (·.id) ∧
    stream.filter (fun e => decide ((pollCycle jl stream l).lastId < e.id)) =
      (stream.filter (fun e => decide (l < e.id))).drop 10 := by
  have hdb : ∀ e ∈ xread stream l 10, dispatchable jl e = true :=
    fun e he => hd e (mem_xread stream l 10 e he).1
  obtain ⟨h1, h2⟩ := processBatch_allDisp jl (xread stream l 10) l hdb
  refine ⟨h1, ?_⟩
  have hl2 : (pollCycle jl stream l).lastId =
      ((xread stream l 10).map (·.id)).getLastD l := h2
  cases hb : (xread stream l 10).map (·.id) with
  | nil =>
    have hFnil : stream.filter (fun e => decide (l < e.id)) = [] := by
      have := List.map_eq_nil_iff.mp hb
      rcases List.take_eq_nil_iff.mp this with h | h
      · cases h
      · exact h
    rw [hFnil]
    have : (pollCycle jl stream l).lastId = l := by rw [hl2, hb]; rfl
    rw [this, hFnil]
    rfl
  | cons i ids =>
    -- the cursor lands on the last id of the batch
    set f : Entry → Bool := fun e => decide (l < e.id) with hf
    set F := stream.filter f with hF
    set lv := (pollCycle jl stream l).lastId with hlv
    have hlvmem : lv ∈ (xread stream l 10).map (·.id) := by
      rw [hl2, hb]
      exact getLastD_mem_cons i ids l
    obtain ⟨e0, he0, he0id⟩ := List.mem_map.mp hlvmem
    have he0F : e0 ∈ F := by
      have := he0
      unfold xread at this
      exact List.mem_of_mem_take this
    have hllv : l < lv := by
      have := (List.mem_filter.mp he0F).2
      rw [hf] at this
      simp at this
      omega
    -- sortedness facts about F and its split at 10
    have hFsorted : F.Pairwise (fun a b => a.id < b.id) :=
      hs.sublist (List.filter_sublist stream)
    have hsplit := List.take_append_drop 10 F
    have hFsorted2 : (F.take 10 ++ F.drop 10).Pairwise (fun a b => a.id < b.id) := by
      rw [hsplit]; exact hFsorted
    have hcross := (List.pairwise_append.mp hFsorted2).2.2
    have hbatchF : xread stream l 10 = F.take 10 := rfl
    -- elements of the batch are at most lv
    have hle : ∀ x ∈ F.take 10, x.id ≤ lv := by
      intro x hx
      have hxid : x.id ∈ (xread stream l 10).map (·.id) := by
        rw [hbatchF]
        exact List.mem_map_of_mem (·.id) hx
      have hsortedIds : ((xread stream l 10).map (·.id)).Pairwise (· < ·) :=
        List.pairwise_map.mpr (xread_sorted stream l 10 hs)
      have := pairwise_lt_le_getLastD ((xread stream l 10).map (·.id)) hsortedIds x.id hxid l
      rw [← hl2] at this
      exact this
    -- elements past the batch are above lv
    have hgt : ∀ y ∈ F.drop 10, lv < y.id := by
      intro y hy
      have := hcross e0 (hbatchF ▸ he0) y hy
      omega
    -- filtering above lv picks exactly the dropped part
    have step1 : stream.filter (fun e => decide (lv < e.id)) =
        F.filter (fun e => decide (lv < e.id)) := by
      rw [hF, List.filter_filter]
      refine List.filter_congr ?_
      intro a _
      by_cases h : lv < a.id
      · have h2 : l < a.id := by omega
        rw [hf]
        simp [h, h2]
      · rw [hf]
        simp [h]
    have step2 : F.filter (fun e => decide (lv < e.id)) = F.drop 10 := by
      conv_lhs => rw [← hsplit]
      rw [List.filter_append]
      have hnil : (F.take 10).filter (fun e => decide (lv < e.id)) = [] := by
        rw [List.filter_eq_nil_iff]
        intro a ha
        have := hle a ha
        simp
        omega
      have hall : (F.drop 10).filter (fun e => decide (lv < e.id)) = F.drop 10 := by
        rw [List.filter_eq_self]
        intro a ha
        have := hgt a ha
        simp
        omega
      rw [hnil, hall, List.nil_append]
    rw [step1, step2]

/-- A run of `n` cycles on a sorted, fully well-formed stream
dispatches exactly the first `10 * n` entries above the starting
cursor, in order, and leaves exactly the remaining entries above the
final cursor. -/
theorem runCycles_allDisp (jl : String → Option Signal) (stream : List Entry)
    (hs : stream.Pairwise (fun a b => a.id < b.id))
    (hd : ∀ e ∈ stream, dispatchable jl e = true) :
    ∀ (n c : Nat),
      (runCycles jl stream c n).dispatched.map Prod.fst =
        ((stream.filter (fun e => decide (c < e.id))).take (10 * n)).map (·.id) ∧
      stream.filter (fun e => decide ((runCycles jl stream c n).lastId < e.id)) =
        (stream.filter (fun e => decide (c < e.id))).drop (10 * n) := by
  intro n
  induction n with
  | zero =>
    intro c
    constructor
    · simp [runCycles]
    · simp [runCycles]
  | succ n ih =>
    intro c
    obtain ⟨hb1, hb2⟩ := pollCycle_allDisp jl stream hs hd c
    obtain ⟨hr1, hr2⟩ := ih (pollCycle jl stream c).lastId
    constructor
    · simp only [runCycles, List.map_append]
      rw [hb1, hr1, hb2, ← List.map_append]
      congr 1
      rw [Nat.mul_succ, Nat.add_comm (10 * n) 10, List.take_add]
    · simp only [runCycles]
      rw [hr2, hb2, List.drop_drop]
      congr 1
      omega

/-- C2, amended (within-run part): on a sorted stream of well-formed
entries, a consumer whose cursor holds `c` dispatches, over enough poll
cycles, exactly the entries with id above `c`, in ascending order, each
exactly once — it never dispatches an id at or below `c` and never
dispatches an id twice.  (The cursor is never persisted: across a
restart the consumer re-resolves it from the stream tail, see the
counterexample.) -/
theorem claim_C2_amended (jl : String → Option Signal) (stream : List Entry)
    (c n : Nat) (hs : stream.Pairwise (fun a b => a.id < b.id))
    (hd : ∀ e ∈ stream, dispatchable jl e = true)
    (hn : stream.length ≤ 10 * n) :
    (runCycles jl stream c n).dispatched.map Prod.fst =
      (stream.filter (fun e => decide (c < e.id))).map (·.id) ∧
    (∀ i ∈ (runCycles jl stream c n).dispatched.map Prod.fst, c < i) ∧
    ((runCycles jl stream c n).dispatched.map Prod.fst).Nodup := by
  obtain ⟨h1, -⟩ := runCycles_allDisp jl stream hs hd n c
  have htake : (stream.filter (fun e => decide (c < e.id))).take (10 * n) =
      stream.filter (fun e => decide (c < e.id)) :=
    List.take_of_length_le (le_trans (List.length_filter_le _ _) hn)
  rw [htake] at h1
  refine ⟨h1, ?_, ?_⟩
  · intro i hi
    rw [h1] at hi
    obtain ⟨e, he, heid⟩ := List.mem_map.mp hi
    have h2 := (List.mem_filter.mp he).2
    simp at h2
    omega
  · rw [h1]
    have hFs : (stream.filter (fun e => decide (c < e.id))).Pairwise
        (fun a b => a.id < b.id) := hs.sublist (List.filter_sublist stream)
    exact List.Pairwise.imp (fun h => Nat.ne_of_lt h) (List.pairwise_map.mpr hFs)

/-- The two-entry stream used for the restart scenario. -/
def streamR : List Entry :=
  [⟨1, ["data", "J"]⟩, ⟨2, ["data", "J"]⟩]

/-- C2, counterexample to the claim as stated: a first run on a
one-entry stream dispatches entry 1 and holds cursor value `C = 1`, but
the cursor is kept only in memory; after entry 2 (id `2 > C`) is
appended and the consumer restarts, the initial cursor is re-resolved
from the stream tail to 2 — independently of `C` — and id 2 is never
dispatched, although the claim requires every id above `C` to be
dispatched exactly once after the restart. -/
theorem claim_C2_counterexample :
    (runCycles jlW [⟨1, ["data", "J"]⟩] 0 1).lastId = 1 ∧
    (runCycles jlW [⟨1, ["data", "J"]⟩] 0 1).dispatched.map Prod.fst = [1] ∧
    resolveStart false streamR = 2 ∧
    (1 : Nat) < 2 ∧
    (runCycles jlW streamR (resolveStart false streamR) 3).dispatched = [] := by
  decide

/-- C2, witness for the amended claim on a concrete two-entry
stream. -/
theorem claim_C2_witness :
    (streamR.Pairwise (fun a b => a.id < b.id)) ∧
    (∀ e ∈ streamR, dispatchable jlW e = true) ∧
    streamR.length ≤ 10 * 1 ∧
    ((runCycles jlW streamR 0 1).dispatched.map Prod.fst =
      (streamR.filter (fun e => decide (0 < e.id))).map (·.id) ∧
    (∀ i ∈ (runCycles jlW streamR 0 1).dispatched.map Prod.fst, 0 < i) ∧
    ((runCycles jlW streamR 0 1).dispatched.map Prod.fst).Nodup) :=
  ⟨by decide, by decide, by decide,
    claim_C2_amended jlW streamR 0 1 (by decide) (by decide) (by decide)⟩
